import Mathlib

/-!
Verification of the property-management server (`src/server/index.js`).

The JavaScript code is shallowly embedded: JS strings become `String`,
JS numbers drawn from the JSON dataset become `ℚ` (`Option ℚ` when the
field may be absent), `undefined`/`null` become `none`, and `NaN` (which
can arise from arithmetic on `undefined`) is the `JNum.nan` constructor.
JS truthiness (`x || d`, `if (x)`) is modelled explicitly: `none`, the
empty string and the number `0` are falsy.
-/

/-- JS `String.prototype.toLowerCase()`, modelled character-wise. -/
def jsToLower (s : String) : String := String.mk (s.data.map Char.toLower)

/-- JS `a || d` for a possibly-absent string: `undefined` and `""` are falsy. -/
def jsOrStr : Option String → String → String
  | none, d => d
  | some s, d => if s = "" then d else s

/-- JS `a || d` for a possibly-absent number: `undefined` and `0` are falsy. -/
def jsOrQ : Option ℚ → ℚ → ℚ
  | none, d => d
  | some q, d => if q = 0 then d else q

/-- JS truthiness of a possibly-absent string. -/
def truthyStr : Option String → Bool
  | none => false
  | some s => s ≠ ""

/-- JS truthiness of a possibly-absent number. -/
def truthyQ : Option ℚ → Bool
  | none => false
  | some q => q ≠ 0

/-- JS `a > c` where `a` may be `undefined` (`undefined > c` is `false`). -/
def jsGtQ : Option ℚ → ℚ → Bool
  | none, _ => false
  | some a, c => a > c

/-- JS `Math.round`: nearest integer, halves toward `+∞`. -/
def jsRound (x : ℚ) : ℤ := Int.floor (x + 1/2)

/-- JS `s.includes(pat)`: `pat` occurs as a contiguous substring of `s`. -/
def jsIncludes (s pat : String) : Bool := decide (pat.data <:+: s.data)

/-- A JS number that may be `NaN` (e.g. the result of arithmetic on `undefined`). -/
inductive JNum where
  | nan
  | num (q : ℚ)
deriving DecidableEq, Repr

/-- JS `Math.round(p * k)` where `p` may be `undefined` (then the result is `NaN`). -/
def jsMulRound : Option ℚ → ℚ → JNum
  | none, _ => JNum.nan
  | some p, k => JNum.num (jsRound (p * k))

/-- JS `Array.prototype.map` with the element index passed to the callback,
starting from index `i`. -/
def mapIdxFrom (f : Nat → α → β) : Nat → List α → List β
  | _, [] => []
  | i, a :: as => f i a :: mapIdxFrom f (i + 1) as

/-- A raw record of the JSON dataset.  Only the fields the server reads are
modelled; each may be absent. -/
structure RawItem where
  LISTINGID : Option String := none
  PROJECTNAME : Option String := none
  SUBLOCALITY : Option String := none
  FULLADDRESS : Option String := none
  PRICE : Option ℚ := none
  PROPERTYSQFT : Option ℚ := none
  STATUS : Option String := none
deriving DecidableEq, Repr

/-- The derived `Unit` entity (named `Unit'` because `Unit` is taken in Lean). -/
structure Unit' where
  unitId : String
  projectName : String
  address : String
  subLocality : Option String
  price : Option ℚ
  sqft : Option ℚ
  pricePerSqft : Option JNum
  status : String
deriving DecidableEq, Repr

/-- `toUnit(item, index)` from `src/server/index.js` lines 30-39, field by field:
`unitId: item.LISTINGID || \x7bUNIT-(index+1)\x7d`,
`projectName: item.PROJECTNAME || item.SUBLOCALITY || 'Unknown Project'`,
`address: item.FULLADDRESS || item.SUBLOCALITY || 'Unknown Address'`,
`subLocality: item.SUBLOCALITY`, `price: item.PRICE`, `sqft: item.PROPERTYSQFT`,
`pricePerSqft: item.PROPERTYSQFT ? item.PRICE / item.PROPERTYSQFT : null`,
`status: item.STATUS || (item.PRICE > 800000 ? 'Reserved' : 'Available')`. -/
def toUnit (item : RawItem) (index : Nat) : Unit' where
  unitId := jsOrStr item.LISTINGID ("UNIT-" ++ toString (index + 1))
  projectName := jsOrStr item.PROJECTNAME (jsOrStr item.SUBLOCALITY "Unknown Project")
  address := jsOrStr item.FULLADDRESS (jsOrStr item.SUBLOCALITY "Unknown Address")
  subLocality := item.SUBLOCALITY
  price := item.PRICE
  sqft := item.PROPERTYSQFT
  pricePerSqft :=
    match item.PROPERTYSQFT with
    | none => none
    | some s =>
      if s = 0 then none
      else some (match item.PRICE with
        | none => JNum.nan
        | some p => JNum.num (p / s))
  status :=
    jsOrStr item.STATUS (if jsGtQ item.PRICE 800000 then "Reserved" else "Available")

/-- Units of a dataset: `rawData.map(toUnit)` (the callback receives the index). -/
def unitsOf (l : List RawItem) : List Unit' := mapIdxFrom (fun i r => toUnit r i) 0 l

/-- Outcome of a request to a protected endpoint: the 403 response of the
gate (with its `\x7bmessage, role\x7d` payload), the handler's response, or an
uncaught exception in the middleware, which Express turns into a generic 500
server error. -/
inductive GateResult (α : Type) where
  | forbidden (message : String) (role : String)
  | ok (a : α)
  | serverError (message : String)
deriving DecidableEq, Repr

/-- The own property names of `Object.prototype` in Node, i.e. the keys a
bracket lookup on an object literal reaches through the prototype chain after
missing an own property.  Every one of them holds a function, except
`__proto__`, whose getter returns `Object.prototype`; all are truthy
non-arrays. -/
def objectPrototypeKeys : List String :=
  ["constructor", "hasOwnProperty", "isPrototypeOf", "propertyIsEnumerable",
   "toLocaleString", "toString", "valueOf", "__defineGetter__",
   "__defineSetter__", "__lookupGetter__", "__lookupSetter__", "__proto__"]

/-- Result of the JS bracket lookup `ROLE_PERMISSIONS[role]`: an own entry of
the object literal (an array of permission names), a truthy non-array value
inherited from `Object.prototype`, or `undefined`. -/
inductive RoleLookup where
  | arr (permissions : List String)
  | inherited
  | undef
deriving DecidableEq, Repr

/-- The lookup `ROLE_PERMISSIONS[role]` on the object literal of lines 11-15:
own properties `admin`, `sales`, `technician` first, then the prototype
chain. -/
def roleLookup (role : String) : RoleLookup :=
  if role = "admin" then RoleLookup.arr ["view_overview", "view_sales", "view_maintenance"]
  else if role = "sales" then RoleLookup.arr ["view_overview", "view_sales"]
  else if role = "technician" then RoleLookup.arr ["view_overview", "view_maintenance"]
  else if role ∈ objectPrototypeKeys then RoleLookup.inherited
  else RoleLookup.undef

/-- `ROLE_PERMISSIONS[role] || []` (line 19): `undefined` is falsy and is
replaced by `[]`; a truthy inherited value is kept as is. -/
def permsOrEmpty : RoleLookup → RoleLookup
  | RoleLookup.undef => RoleLookup.arr []
  | v => v

/-- `permissions.includes(x)` in a JS semantics where calling a method that
does not exist is a fault: it answers membership on an array and throws a
`TypeError` on the function or object inherited from `Object.prototype`. -/
def jsIncludesCall : RoleLookup → String → Except String Bool
  | RoleLookup.arr l, x => Except.ok (decide (x ∈ l))
  | _, _ => Except.error "TypeError: permissions.includes is not a function"

/-- The `authorize` middleware (lines 17-27) applied to a request: resolves
the role from the `x-role` header (`(req.header('x-role') || 'sales').toLowerCase()`),
computes `ROLE_PERMISSIONS[role] || []`, and either responds 403 without
running the handler, runs the handler, or throws (500) when
`permissions.includes` is called on a non-array inherited value. -/
def authorize (requiredPermission : String) (xRole : Option String)
    (handler : Unit → α) : GateResult α :=
  let role := jsToLower (jsOrStr xRole "sales")
  let permissions := permsOrEmpty (roleLookup role)
  match jsIncludesCall permissions requiredPermission with
  | Except.error e => GateResult.serverError e
  | Except.ok b =>
    if b then GateResult.ok (handler ())
    else GateResult.forbidden "Forbidden: insufficient permissions" role

/-- Whether a gate outcome is the 403 response. -/
def isForbidden : GateResult α → Bool
  | GateResult.forbidden _ _ => true
  | _ => false

/-- One entry of the overview's `byArea` list. -/
structure AreaEntry where
  name : String
  avgPrice : ℚ
  count : Nat
deriving DecidableEq, Repr

/-- The overview response payload. -/
structure Overview where
  totalValue : ℚ
  unitCount : Nat
  avgPrice : ℚ
  byArea : List AreaEntry
deriving DecidableEq, Repr

/-- The grouping key used by the overview: `u.subLocality || 'Unknown'`. -/
def areaKey (u : Unit') : String := jsOrStr u.subLocality "Unknown"

/-- Update the area accumulator (the `areaMap` object, kept in insertion
order) for one unit's area key and price contribution: create the entry if
absent, then add the price to `totalPrice` and bump `count`. -/
def bumpArea : List (String × ℚ × Nat) → String → ℚ → List (String × ℚ × Nat)
  | [], k, p => [(k, p, 1)]
  | (n, t, c) :: rest, k, p =>
    if n = k then (n, t + p, c + 1) :: rest
    else (n, t, c) :: bumpArea rest k p

/-- The `units.forEach` loop (lines 54-61) that builds `areaMap`. -/
def areaGroups (units : List Unit') : List (String × ℚ × Nat) :=
  units.foldl (fun acc u => bumpArea acc (areaKey u) (jsOrQ u.price 0)) []

/-- Projection of one accumulated group to a `byArea` entry (lines 64-68):
`avgPrice: item.count ? Math.round(item.totalPrice / item.count) : 0`. -/
def finishArea (g : String × ℚ × Nat) : AreaEntry where
  name := g.1
  avgPrice := if g.2.2 = 0 then 0 else ((jsRound (g.2.1 / (g.2.2 : ℚ)) : ℤ) : ℚ)
  count := g.2.2

/-- Comparator `(a, b) => b.count - a.count` of the `byArea` sort, as the
"may come before" relation of a stable sort: descending count. -/
def byAreaLe (a b : AreaEntry) : Bool := b.count ≤ a.count

/-- The `GET /api/dashboard/overview` handler (lines 42-80).  `none` stands
for a missing or non-array dataset. -/
def overviewHandler (rawData : Option (List RawItem)) : Overview :=
  match rawData with
  | none => ⟨0, 0, 0, []⟩
  | some l =>
    if l.length = 0 then ⟨0, 0, 0, []⟩
    else
      let units := unitsOf l
      let totalValue := units.foldl (fun sum u => sum + jsOrQ u.price 0) 0
      let unitCount := units.length
      let avgPrice := if unitCount > 0 then totalValue / (unitCount : ℚ) else 0
      let byArea := (((areaGroups units).map finishArea).mergeSort byAreaLe).take 10
      ⟨totalValue, unitCount, avgPrice, byArea⟩

/-- The status filter predicate (line 101):
`String(u.status).toLowerCase() === String(status).toLowerCase()`. -/
def statusPred (u : Unit') (q : String) : Bool := jsToLower u.status = jsToLower q

/-- The area filter predicate (line 106):
`u.subLocality && u.subLocality.toLowerCase().includes(area.toLowerCase())`. -/
def areaPred (u : Unit') (q : String) : Bool :=
  match u.subLocality with
  | none => false
  | some s => if s = "" then false else jsIncludes (jsToLower s) (jsToLower q)

/-- The `GET /api/properties` handler (lines 95-111): map to units, apply the
optional `status` and `area` filters (skipped when the parameter is falsy),
and return the first 200 results. -/
def propertiesHandler (rawData : List RawItem) (status area : Option String) :
    List Unit' :=
  let units := unitsOf rawData
  let units := if truthyStr status then
      units.filter (fun u => statusPred u (status.getD "")) else units
  let units := if truthyStr area then
      units.filter (fun u => areaPred u (area.getD "")) else units
  units.take 200

/-- Evaluation of the area filter callback in a JS semantics where reading a
method off `undefined` is a fault (`TypeError`): the short-circuit
`u.subLocality && ...` only reaches `u.subLocality.toLowerCase()` when
`u.subLocality` is truthy. -/
def jsAreaTest (sub : Option String) (q : String) : Except String Bool :=
  if truthyStr sub then
    match sub with
    | none => Except.error "TypeError: toLowerCase of undefined"
    | some s => Except.ok (jsIncludes (jsToLower s) (jsToLower q))
  else Except.ok false

/-- One installment of a contract's schedule. -/
structure Installment where
  installmentNo : Nat
  dueDate : ℤ
  amount : JNum
  status : String
deriving DecidableEq, Repr

/-- A synthetic contract. -/
structure Contract where
  contractId : String
  unitId : String
  buyerName : String
  bookingDate : ℤ
  totalPrice : Option ℚ
  downPayment : JNum
  installmentSchedule : List Installment
deriving DecidableEq, Repr

/-- One contract of `GET /api/sales/contracts` (lines 117-144); `now` is the
request time `Date.now()` in milliseconds. -/
def mkContract (now : ℤ) (index : Nat) (unit : Unit') : Contract where
  contractId := "CN-" ++ toString (index + 1)
  unitId := unit.unitId
  buyerName := "Buyer " ++ toString (index + 1)
  bookingDate := now - index * 86400000
  totalPrice := unit.price
  downPayment := jsMulRound unit.price (1/5)
  installmentSchedule :=
    [ ⟨1, now + 30 * 86400000, jsMulRound unit.price (1/5), "Pending"⟩,
      ⟨2, now + 60 * 86400000, jsMulRound unit.price (3/10), "Pending"⟩,
      ⟨3, now + 90 * 86400000, jsMulRound unit.price (3/10), "Pending"⟩ ]

/-- The `GET /api/sales/contracts` handler (lines 114-147):
`rawData.slice(0, 100).map(toUnit)` then one contract per unit. -/
def contractsHandler (rawData : List RawItem) (now : ℤ) : List Contract :=
  let units := mapIdxFrom (fun i r => toUnit r i) 0 (rawData.take 100)
  mapIdxFrom (fun i u => mkContract now i u) 0 units

/-- A synthetic maintenance task. -/
structure MTask where
  taskId : String
  unitId : String
  projectName : String
  subLocality : Option String
  priority : String
  type : String
  status : String
  scheduledDate : ℤ
deriving DecidableEq, Repr

/-- The condition `unit.pricePerSqft && unit.pricePerSqft > 500` (line 160):
`null`, `NaN` and `0` are falsy, and only a number compares greater. -/
def ppsqftHigh : Option JNum → Bool
  | some (JNum.num q) => if q = 0 then false else decide (q > 500)
  | _ => false

/-- One task of `GET /api/maintenance/tasks` (lines 154-163). -/
def mkTask (now : ℤ) (index : Nat) (unit : Unit') : MTask where
  taskId := "MT-" ++ toString (index + 1)
  unitId := unit.unitId
  projectName := unit.projectName
  subLocality := unit.subLocality
  priority := if jsGtQ unit.price 900000 then "High" else "Normal"
  type := if ppsqftHigh unit.pricePerSqft then "Inspection" else "General Repair"
  status := if index % 3 = 0 then "In Progress" else "Open"
  scheduledDate := now + (index + 1) * 86400000

/-- The `GET /api/maintenance/tasks` handler (lines 150-165):
`rawData.slice(0, 50).map(toUnit)` then one task per unit. -/
def tasksHandler (rawData : List RawItem) (now : ℤ) : List MTask :=
  let units := mapIdxFrom (fun i r => toUnit r i) 0 (rawData.take 50)
  mapIdxFrom (fun i u => mkTask now i u) 0 units

/-! ### Basic lemmas about the embedding -/

theorem jsOrQ_zero (p : Option ℚ) : jsOrQ p 0 = p.getD 0 := by
  cases p with
  | none => rfl
  | some q =>
    simp only [jsOrQ, Option.getD_some]
    split <;> simp_all

theorem mapIdxFrom_length (f : Nat → α → β) (i : Nat) (l : List α) :
    (mapIdxFrom f i l).length = l.length := by
  induction l generalizing i with
  | nil => rfl
  | cons a as ih => simp [mapIdxFrom, ih]

theorem unitsOf_length (l : List RawItem) : (unitsOf l).length = l.length :=
  mapIdxFrom_length _ 0 l

theorem mapIdxFrom_get (f : Nat → α → β) (i j : Nat) (l : List α)
    (h : j < l.length) (h2 : j < (mapIdxFrom f i l).length) :
    (mapIdxFrom f i l).get ⟨j, h2⟩ = f (i + j) (l.get ⟨j, h⟩) := by
  induction l generalizing i j with
  | nil => simp at h
  | cons a as ih =>
    cases j with
    | zero => rfl
    | succ j =>
      have hj : j < as.length := by simpa using h
      have hj2 : j < (mapIdxFrom f (i + 1) as).length := by
        rw [mapIdxFrom_length]; exact hj
      simpa [mapIdxFrom, Nat.add_assoc, Nat.add_comm 1 j] using ih (i + 1) j hj hj2

theorem toUnit_price (r : RawItem) (i : Nat) : (toUnit r i).price = r.PRICE := rfl

theorem toUnit_subLocality (r : RawItem) (i : Nat) :
    (toUnit r i).subLocality = r.SUBLOCALITY := rfl

theorem foldl_price_sum (l : List RawItem) (i : Nat) (s0 : ℚ) :
    (mapIdxFrom (fun i r => toUnit r i) i l).foldl (fun sum u => sum + jsOrQ u.price 0) s0
      = s0 + (l.map (fun r => r.PRICE.getD 0)).sum := by
  induction l generalizing i s0 with
  | nil => simp [mapIdxFrom]
  | cons r rs ih =>
    simp only [mapIdxFrom, List.foldl_cons, List.map_cons, List.sum_cons]
    rw [ih, toUnit_price, jsOrQ_zero]
    ring

/-! ### Claim theorems -/

/-- C2: for every dataset, the overview's `totalValue` is the sum of unit
prices with absent prices as 0, `unitCount` is the number of records,
`avgPrice` is `totalValue / unitCount` when the count is positive and 0
otherwise, and a missing, non-array or empty dataset yields the zeroed
payload. -/
theorem overview_totals (ds : Option (List RawItem)) :
    ((ds = none ∨ ds = some []) →
      overviewHandler ds = ⟨0, 0, 0, []⟩) ∧
    (∀ l, ds = some l → l ≠ [] →
      (overviewHandler ds).totalValue = (l.map (fun r => r.PRICE.getD 0)).sum ∧
      (overviewHandler ds).unitCount = l.length ∧
      0 < (overviewHandler ds).unitCount ∧
      (overviewHandler ds).avgPrice
        = (overviewHandler ds).totalValue / ((overviewHandler ds).unitCount : ℚ)) := by
  constructor
  · rintro (rfl | rfl) <;> rfl
  · rintro l rfl hne
    have hlen : ¬ l.length = 0 := by simpa using hne
    have hpos : 0 < l.length := Nat.pos_of_ne_zero hlen
    simp only [overviewHandler, if_neg hlen]
    refine ⟨?_, ?_, ?_, ?_⟩
    · simpa [unitsOf] using foldl_price_sum l 0 0
    · exact unitsOf_length l
    · simpa [unitsOf_length] using hpos
    · have : 0 < (unitsOf l).length := by simpa [unitsOf_length] using hpos
      simp [this]

/-- Witness for C2 at a concrete two-record dataset. -/
theorem overview_totals_witness :
    (some [({ PRICE := some 5 } : RawItem), ({ } : RawItem)] ≠ some ([] : List RawItem)) ∧
    ((overviewHandler (some [({ PRICE := some 5 } : RawItem), { }])).totalValue
        = (([({ PRICE := some 5 } : RawItem), { }]).map (fun r => r.PRICE.getD 0)).sum ∧
      (overviewHandler (some [({ PRICE := some 5 } : RawItem), { }])).unitCount = 2 ∧
      0 < (overviewHandler (some [({ PRICE := some 5 } : RawItem), { }])).unitCount ∧
      (overviewHandler (some [({ PRICE := some 5 } : RawItem), { }])).avgPrice
        = (overviewHandler (some [({ PRICE := some 5 } : RawItem), { }])).totalValue
          / ((overviewHandler (some [({ PRICE := some 5 } : RawItem), { }])).unitCount : ℚ)) := by
  refine ⟨by simp, ?_⟩
  exact (overview_totals (some [{ PRICE := some 5 }, { }])).2
    [{ PRICE := some 5 }, { }] rfl (by simp)

theorem truthyStr_eq_false_iff (o : Option String) :
    truthyStr o = false ↔ o = none ∨ o = some "" := by
  cases o with
  | none => simp [truthyStr]
  | some s => simp [truthyStr]

theorem jsOrStr_of_falsy (o : Option String) (d : String) (h : truthyStr o = false) :
    jsOrStr o d = d := by
  rcases (truthyStr_eq_false_iff o).1 h with rfl | rfl <;> simp [jsOrStr]

theorem jsOrStr_ne_empty (o : Option String) (d : String) (hd : d ≠ "") :
    jsOrStr o d ≠ "" := by
  cases o with
  | none => simpa [jsOrStr] using hd
  | some s =>
    simp only [jsOrStr]
    split <;> simp_all

/-- C7 counterexample: for a raw record with no sub-locality field, the unit's
`subLocality` is absent — there is no fallback chain on that field, so the
claim that every Unit has a present `subLocality` is false. -/
theorem toUnit_subLocality_absent :
    (toUnit { } 0).subLocality = none := rfl

/-- C7 (amended): `subLocality` is copied from the raw record unchanged (hence
may be absent), while the fallback chains ending in fixed placeholders apply to
`projectName` and `address`, which are therefore always present (non-empty). -/
theorem toUnit_subLocality_copied (r : RawItem) (i : Nat) :
    (toUnit r i).subLocality = r.SUBLOCALITY ∧
    (truthyStr r.PROJECTNAME = false → truthyStr r.SUBLOCALITY = false →
      (toUnit r i).projectName = "Unknown Project") ∧
    (truthyStr r.FULLADDRESS = false → truthyStr r.SUBLOCALITY = false →
      (toUnit r i).address = "Unknown Address") ∧
    (toUnit r i).projectName ≠ "" ∧ (toUnit r i).address ≠ "" := by
  refine ⟨rfl, ?_, ?_, ?_, ?_⟩
  · intro hp hs
    show jsOrStr r.PROJECTNAME (jsOrStr r.SUBLOCALITY "Unknown Project") = _
    rw [jsOrStr_of_falsy _ _ hp, jsOrStr_of_falsy _ _ hs]
  · intro hp hs
    show jsOrStr r.FULLADDRESS (jsOrStr r.SUBLOCALITY "Unknown Address") = _
    rw [jsOrStr_of_falsy _ _ hp, jsOrStr_of_falsy _ _ hs]
  · exact jsOrStr_ne_empty _ _ (jsOrStr_ne_empty _ _ (by decide))
  · exact jsOrStr_ne_empty _ _ (jsOrStr_ne_empty _ _ (by decide))

/-- Witness for the amended C7 at a record with no fields. -/
theorem toUnit_subLocality_copied_witness :
    (toUnit { } 0).subLocality = none ∧ (toUnit { } 0).projectName = "Unknown Project" := by
  have h := toUnit_subLocality_copied { } 0
  exact ⟨h.1, h.2.1 rfl rfl⟩

/-- C8: `pricePerSqft` is `price / sqft` when `sqft` is present and non-zero
(and the price is present), and absent when `sqft` is 0 or absent; and a unit
with no explicit raw status is `"Reserved"` exactly when its price exceeds
800000, else `"Available"`. -/
theorem toUnit_pricePerSqft_status (r : RawItem) (i : Nat) :
    (∀ s p, r.PROPERTYSQFT = some s → s ≠ 0 → r.PRICE = some p →
      (toUnit r i).pricePerSqft = some (JNum.num (p / s))) ∧
    ((r.PROPERTYSQFT = none ∨ r.PROPERTYSQFT = some 0) →
      (toUnit r i).pricePerSqft = none) ∧
    (r.STATUS = none →
      (((toUnit r i).status = "Reserved" ↔ ∃ p, r.PRICE = some p ∧ p > 800000) ∧
       ((toUnit r i).status = "Available" ↔ ¬ ∃ p, r.PRICE = some p ∧ p > 800000))) := by
  refine ⟨?_, ?_, ?_⟩
  · intro s p hs hs0 hp
    simp [toUnit, hs, hs0, hp]
  · rintro (h | h) <;> simp [toUnit, h]
  · intro hst
    have hstat : (toUnit r i).status
        = (if jsGtQ r.PRICE 800000 then "Reserved" else "Available") := by
      show jsOrStr r.STATUS _ = _
      rw [hst]; rfl
    cases hP : r.PRICE with
    | none =>
      rw [hstat]
      simp [jsGtQ, hP]
    | some p =>
      rw [hstat]
      by_cases hgt : p > 800000
      · simp [jsGtQ, hP, hgt]
      · simp [jsGtQ, hP, hgt]

/-- Witness for C8: a record with price 1000 and 2 sqft, one with no sqft, and
one with no status and price 900000. -/
theorem toUnit_pricePerSqft_status_witness :
    (toUnit { PRICE := some 1000, PROPERTYSQFT := some 2 } 0).pricePerSqft
      = some (JNum.num 500) ∧
    (toUnit { PRICE := some 1000 } 0).pricePerSqft = none ∧
    (toUnit { PRICE := some 900000 } 0).status = "Reserved" := by
  refine ⟨?_, ?_, ?_⟩
  · have h := (toUnit_pricePerSqft_status { PRICE := some 1000, PROPERTYSQFT := some 2 } 0).1
      2 1000 rfl (by norm_num) rfl
    simpa [show (1000 : ℚ) / 2 = 500 by norm_num] using h
  · exact (toUnit_pricePerSqft_status { PRICE := some 1000 } 0).2.1 (Or.inl rfl)
  · exact ((toUnit_pricePerSqft_status { PRICE := some 900000 } 0).2.2 rfl).1.2
      ⟨900000, rfl, by norm_num⟩

/-- The role resolution as the specification words it: lowercase the header,
defaulting to `"sales"` only when the header is absent. -/
def claimResolveRole (h : Option String) : String := jsToLower (h.getD "sales")

/-- The permission table exactly as the claim words it: the three fixed roles
and the empty set for every other role string. -/
def claimPermissions (role : String) : List String :=
  if role = "admin" then ["view_overview", "view_sales", "view_maintenance"]
  else if role = "sales" then ["view_overview", "view_sales"]
  else if role = "technician" then ["view_overview", "view_maintenance"]
  else []

theorem toNat_ofNat_valid (m : Nat) (h : m < 55296) : (Char.ofNat m).toNat = m := by
  rw [Char.ofNat, dif_pos (Or.inl h)]
  rfl

theorem toLower_toNat_not_upper (c : Char) :
    ¬ (65 ≤ (Char.toLower c).toNat ∧ (Char.toLower c).toNat ≤ 90) := by
  simp only [Char.toLower]
  split
  · next hcond =>
    rw [toNat_ofNat_valid (c.toNat + 32) (by omega)]
    omega
  · next hcond => omega

theorem jsToLower_ne (s t : String) (c : Char) (hct : c ∈ t.data)
    (hc : 65 ≤ c.toNat ∧ c.toNat ≤ 90) : jsToLower s ≠ t := by
  intro he
  have hmem : c ∈ (jsToLower s).data := by rw [he]; exact hct
  obtain ⟨d, -, rfl⟩ :=
    List.mem_map.1 (show c ∈ s.data.map Char.toLower from hmem)
  exact toLower_toNat_not_upper d hc

/-- A lowercased string can only hit the all-lowercase own property names of
`Object.prototype`, namely `constructor` and `__proto__`; every other key
contains an uppercase letter. -/
theorem jsToLower_not_protoKey (s : String)
    (hc : jsToLower s ≠ "constructor") (hp : jsToLower s ≠ "__proto__") :
    jsToLower s ∉ objectPrototypeKeys := by
  intro hmem
  simp only [objectPrototypeKeys, List.mem_cons, List.not_mem_nil, or_false] at hmem
  rcases hmem with h | h | h | h | h | h | h | h | h | h | h | h
  · exact hc h
  · exact jsToLower_ne s "hasOwnProperty" (Char.ofNat 79) (by decide) (by decide) h
  · exact jsToLower_ne s "isPrototypeOf" (Char.ofNat 80) (by decide) (by decide) h
  · exact jsToLower_ne s "propertyIsEnumerable" (Char.ofNat 73) (by decide) (by decide) h
  · exact jsToLower_ne s "toLocaleString" (Char.ofNat 76) (by decide) (by decide) h
  · exact jsToLower_ne s "toString" (Char.ofNat 83) (by decide) (by decide) h
  · exact jsToLower_ne s "valueOf" (Char.ofNat 79) (by decide) (by decide) h
  · exact jsToLower_ne s "__defineGetter__" (Char.ofNat 71) (by decide) (by decide) h
  · exact jsToLower_ne s "__defineSetter__" (Char.ofNat 83) (by decide) (by decide) h
  · exact jsToLower_ne s "__lookupGetter__" (Char.ofNat 71) (by decide) (by decide) h
  · exact jsToLower_ne s "__lookupSetter__" (Char.ofNat 83) (by decide) (by decide) h
  · exact hp h

/-- For every lowercased role other than `constructor` and `__proto__`, the
lookup plus `|| []` yields exactly the fixed table's set (empty for unknown
roles). -/
theorem permsOrEmpty_roleLookup (s : String)
    (hc : jsToLower s ≠ "constructor") (hp : jsToLower s ≠ "__proto__") :
    permsOrEmpty (roleLookup (jsToLower s))
      = RoleLookup.arr (claimPermissions (jsToLower s)) := by
  have hproto := jsToLower_not_protoKey s hc hp
  by_cases h1 : jsToLower s = "admin"
  · simp [roleLookup, claimPermissions, permsOrEmpty, h1]
  · by_cases h2 : jsToLower s = "sales"
    · simp [roleLookup, claimPermissions, permsOrEmpty, h1, h2]
    · by_cases h3 : jsToLower s = "technician"
      · simp [roleLookup, claimPermissions, permsOrEmpty, h1, h2, h3]
      · simp [roleLookup, claimPermissions, permsOrEmpty, h1, h2, h3, hproto]

/-- C1 counterexample: two concrete requests on which the claim fails.  With
an empty `x-role` header the claim resolves role `""` (empty permission set,
403 predicted) but the code treats the falsy header like a missing one and
serves the request as `sales`; with `x-role: constructor` the claim predicts
403 (role outside the table) but the bracket lookup hits
`Object.prototype.constructor`, `permissions.includes` throws a `TypeError`,
and the response is a generic 500 server error, not a 403. -/
theorem authorize_claim_counterexample :
    (¬ ((isForbidden (authorize "view_sales" (some "") (fun _ => (0 : Nat))) = true)
        ↔ "view_sales" ∉ claimPermissions (claimResolveRole (some "")))) ∧
    (¬ ((isForbidden (authorize "view_overview" (some "constructor")
            (fun _ => (0 : Nat))) = true)
        ↔ "view_overview" ∉ claimPermissions (claimResolveRole (some "constructor")))) ∧
    authorize "view_overview" (some "constructor") (fun _ => (0 : Nat))
      = GateResult.serverError "TypeError: permissions.includes is not a function" := by
  refine ⟨?_, ?_, ?_⟩ <;> decide

/-- C1 (amended): the gate lowercases the `x-role` header, defaulting to
`"sales"` when the header is absent or empty.  For every resolved role other
than `"constructor"` and `"__proto__"`, it responds 403 with the
`\x7bmessage, role\x7d` payload exactly when the required permission is not in the
fixed table's set for that role (empty for unknown roles), a 403 is
independent of the handler, and otherwise the handler runs; in particular
every other non-empty unknown role is refused by every protected endpoint.
For the resolved roles `"constructor"` and `"__proto__"` — the only lowercase
own property names of `Object.prototype` — the bracket lookup returns a
truthy inherited non-array, `permissions.includes` throws a `TypeError`, and
the request ends in a 500 server error instead of a 403. -/
theorem authorize_gate (required : String) (h : Option String) {α : Type}
    (f g : Unit → α) :
    (jsToLower (jsOrStr h "sales") ≠ "constructor" →
      jsToLower (jsOrStr h "sales") ≠ "__proto__" →
      ((isForbidden (authorize required h f) = true
          ↔ required ∉ claimPermissions (jsToLower (jsOrStr h "sales"))) ∧
        (required ∈ claimPermissions (jsToLower (jsOrStr h "sales")) →
          authorize required h f = GateResult.ok (f ())))) ∧
    ((jsToLower (jsOrStr h "sales") = "constructor" ∨
        jsToLower (jsOrStr h "sales") = "__proto__") →
      authorize required h f
        = GateResult.serverError "TypeError: permissions.includes is not a function") ∧
    (isForbidden (authorize required h f) = true →
      authorize required h f
        = GateResult.forbidden "Forbidden: insufficient permissions"
            (jsToLower (jsOrStr h "sales")) ∧
      authorize required h f = authorize required h g) ∧
    (∀ s : String, s ≠ "" →
      jsToLower s
        ∉ (["admin", "sales", "technician", "constructor", "__proto__"] : List String) →
      isForbidden (authorize required (some s) f) = true) := by
  refine ⟨?_, ?_, ?_, ?_⟩
  · intro hc hp
    have he := permsOrEmpty_roleLookup (jsOrStr h "sales") hc hp
    constructor
    · by_cases hm : required ∈ claimPermissions (jsToLower (jsOrStr h "sales")) <;>
        simp [authorize, he, jsIncludesCall, isForbidden, hm]
    · intro hm
      simp [authorize, he, jsIncludesCall, hm]
  · rintro (hb | hb) <;>
      simp [authorize, hb, roleLookup, objectPrototypeKeys, permsOrEmpty, jsIncludesCall]
  · intro hforb
    cases hv : roleLookup (jsToLower (jsOrStr h "sales")) with
    | arr perms =>
      by_cases hm : required ∈ perms
      · rw [show authorize required h f = GateResult.ok (f ()) from by
          simp [authorize, hv, permsOrEmpty, jsIncludesCall, hm]] at hforb
        simp [isForbidden] at hforb
      · constructor <;> simp [authorize, hv, permsOrEmpty, jsIncludesCall, hm]
    | inherited =>
      rw [show authorize required h f
          = GateResult.serverError "TypeError: permissions.includes is not a function" from by
        simp [authorize, hv, permsOrEmpty, jsIncludesCall]] at hforb
      simp [isForbidden] at hforb
    | undef =>
      constructor <;> simp [authorize, hv, permsOrEmpty, jsIncludesCall]
  · intro s hs hnot
    simp only [List.mem_cons, List.not_mem_nil, or_false, not_or] at hnot
    obtain ⟨h1, h2, h3, hc, hp⟩ := hnot
    have hor : jsOrStr (some s) "sales" = s := by simp [jsOrStr, hs]
    have he := permsOrEmpty_roleLookup s hc hp
    have hcp : claimPermissions (jsToLower s) = [] := by
      simp [claimPermissions, h1, h2, h3]
    rw [hcp] at he
    simp [authorize, hor, he, jsIncludesCall, isForbidden]

/-- Witness for the amended C1: a missing header is served as `sales`, a
technician is refused the sales endpoint, an unknown role is refused, and the
`__proto__` role ends in the 500 TypeError outcome. -/
theorem authorize_gate_witness :
    authorize "view_sales" none (fun _ => (1 : Nat)) = GateResult.ok 1 ∧
    isForbidden (authorize "view_sales" (some "Technician") (fun _ => (1 : Nat))) = true ∧
    isForbidden (authorize "view_overview" (some "guest") (fun _ => (1 : Nat))) = true ∧
    authorize "view_overview" (some "__proto__") (fun _ => (1 : Nat))
      = GateResult.serverError "TypeError: permissions.includes is not a function" := by
  refine ⟨?_, ?_, ?_, ?_⟩
  · exact ((authorize_gate "view_sales" none (fun _ => (1 : Nat)) (fun _ => 2)).1
      (by decide) (by decide)).2 (by decide)
  · exact ((authorize_gate "view_sales" (some "Technician") (fun _ => (1 : Nat))
      (fun _ => 2)).1 (by decide) (by decide)).1.mpr (by decide)
  · exact (authorize_gate "view_overview" (some "guest") (fun _ => (1 : Nat))
      (fun _ => 2)).2.2.2 "guest" (by decide) (by decide)
  · exact (authorize_gate "view_overview" (some "__proto__") (fun _ => (1 : Nat))
      (fun _ => 2)).2.1 (Or.inr (by decide))

/-! ### Invariants of the area-grouping fold -/

/-- Total `count` recorded in an accumulator for a given area name. -/
def groupCount (acc : List (String × ℚ × Nat)) (n : String) : Nat :=
  ((acc.filter (fun g => g.1 = n)).map (fun g => g.2.2)).sum

/-- Total `totalPrice` recorded in an accumulator for a given area name. -/
def groupSum (acc : List (String × ℚ × Nat)) (n : String) : ℚ :=
  ((acc.filter (fun g => g.1 = n)).map (fun g => g.2.1)).sum

theorem bumpArea_names (acc : List (String × ℚ × Nat)) (k : String) (p : ℚ) :
    (bumpArea acc k p).map (fun g => g.1)
      = if k ∈ acc.map (fun g => g.1) then acc.map (fun g => g.1)
        else acc.map (fun g => g.1) ++ [k] := by
  induction acc with
  | nil => simp [bumpArea]
  | cons g rest ih =>
    obtain ⟨n, t, c⟩ := g
    by_cases hk : n = k
    · subst hk
      simp [bumpArea]
    · simp only [bumpArea, if_neg hk, List.map_cons, List.mem_cons]
      rw [ih]
      by_cases hmem : k ∈ rest.map (fun g => g.1)
      · simp [hmem, Ne.symm hk]
      · simp [hmem, Ne.symm hk]

theorem groupCount_cons (g : String × ℚ × Nat) (rest : List (String × ℚ × Nat))
    (n : String) :
    groupCount (g :: rest) n = (if g.1 = n then g.2.2 else 0) + groupCount rest n := by
  simp only [groupCount, List.filter_cons]
  split
  · simp_all
  · simp_all

theorem groupSum_cons (g : String × ℚ × Nat) (rest : List (String × ℚ × Nat))
    (n : String) :
    groupSum (g :: rest) n = (if g.1 = n then g.2.1 else 0) + groupSum rest n := by
  simp only [groupSum, List.filter_cons]
  split
  · simp_all
  · simp_all

theorem bumpArea_nil (k : String) (p : ℚ) : bumpArea [] k p = [(k, p, 1)] := rfl

theorem bumpArea_cons (n : String) (t : ℚ) (c : Nat)
    (rest : List (String × ℚ × Nat)) (k : String) (p : ℚ) :
    bumpArea ((n, t, c) :: rest) k p
      = if n = k then (n, t + p, c + 1) :: rest
        else (n, t, c) :: bumpArea rest k p := rfl

theorem bumpArea_groupCount (acc : List (String × ℚ × Nat)) (k n : String) (p : ℚ) :
    groupCount (bumpArea acc k p) n = groupCount acc n + (if n = k then 1 else 0) := by
  induction acc with
  | nil =>
    rw [bumpArea_nil, groupCount_cons]
    by_cases h : k = n
    · subst h; simp [groupCount]
    · have h2 : ¬ n = k := fun hh => h hh.symm
      simp [groupCount, h, h2]
  | cons g rest ih =>
    obtain ⟨m, t, c⟩ := g
    rw [bumpArea_cons]
    by_cases hmk : m = k
    · rw [if_pos hmk, groupCount_cons, groupCount_cons]
      subst hmk
      by_cases h : m = n
      · subst h; simp; omega
      · have h2 : ¬ n = m := fun hh => h hh.symm
        simp [h, h2]
    · rw [if_neg hmk, groupCount_cons, groupCount_cons, ih]
      omega

theorem bumpArea_groupSum (acc : List (String × ℚ × Nat)) (k n : String) (p : ℚ) :
    groupSum (bumpArea acc k p) n = groupSum acc n + (if n = k then p else 0) := by
  induction acc with
  | nil =>
    rw [bumpArea_nil, groupSum_cons]
    by_cases h : k = n
    · subst h; simp [groupSum]
    · have h2 : ¬ n = k := fun hh => h hh.symm
      simp [groupSum, h, h2]
  | cons g rest ih =>
    obtain ⟨m, t, c⟩ := g
    rw [bumpArea_cons]
    by_cases hmk : m = k
    · rw [if_pos hmk, groupSum_cons, groupSum_cons]
      subst hmk
      by_cases h : m = n
      · subst h; simp; ring
      · have h2 : ¬ n = m := fun hh => h hh.symm
        simp [h, h2]
    · rw [if_neg hmk, groupSum_cons, groupSum_cons, ih]
      ring

theorem groupCount_eq_zero (acc : List (String × ℚ × Nat)) (n : String)
    (h : n ∉ acc.map (fun g => g.1)) : groupCount acc n = 0 := by
  have : acc.filter (fun g => g.1 = n) = [] := by
    rw [List.filter_eq_nil_iff]
    intro g hg
    simp only [decide_eq_true_eq]
    intro hn
    exact h (List.mem_map.2 ⟨g, hg, hn⟩)
  simp [groupCount, this]

theorem groupSum_eq_zero (acc : List (String × ℚ × Nat)) (n : String)
    (h : n ∉ acc.map (fun g => g.1)) : groupSum acc n = 0 := by
  have : acc.filter (fun g => g.1 = n) = [] := by
    rw [List.filter_eq_nil_iff]
    intro g hg
    simp only [decide_eq_true_eq]
    intro hn
    exact h (List.mem_map.2 ⟨g, hg, hn⟩)
  simp [groupSum, this]

theorem mem_groups_count_sum (acc : List (String × ℚ × Nat))
    (hnd : (acc.map (fun g => g.1)).Nodup) (g : String × ℚ × Nat) (hg : g ∈ acc) :
    g.2.2 = groupCount acc g.1 ∧ g.2.1 = groupSum acc g.1 := by
  induction acc with
  | nil => cases hg
  | cons a rest ih =>
    rw [List.map_cons, List.nodup_cons] at hnd
    rcases List.mem_cons.1 hg with rfl | hmem
    · rw [groupCount_cons, groupCount_eq_zero rest g.1 hnd.1,
        groupSum_cons, groupSum_eq_zero rest g.1 hnd.1]
      simp
    · have hne : ¬ a.1 = g.1 := by
        intro he
        exact hnd.1 (he ▸ List.mem_map.2 ⟨g, hmem, rfl⟩)
      rw [groupCount_cons, groupSum_cons, if_neg hne, if_neg hne]
      simpa using ih hnd.2 hmem

theorem areaGroups_loop_groupCount (units : List Unit')
    (acc : List (String × ℚ × Nat)) (n : String) :
    groupCount
        (units.foldl (fun acc u => bumpArea acc (areaKey u) (jsOrQ u.price 0)) acc) n
      = groupCount acc n + units.countP (fun u => areaKey u = n) := by
  induction units generalizing acc with
  | nil => simp
  | cons u us ih =>
    simp only [List.foldl_cons, List.countP_cons]
    rw [ih, bumpArea_groupCount]
    by_cases h : areaKey u = n
    · simp [h]
      omega
    · have h2 : ¬ n = areaKey u := fun hh => h hh.symm
      simp [h, h2]

theorem areaGroups_loop_groupSum (units : List Unit')
    (acc : List (String × ℚ × Nat)) (n : String) :
    groupSum
        (units.foldl (fun acc u => bumpArea acc (areaKey u) (jsOrQ u.price 0)) acc) n
      = groupSum acc n
        + ((units.filter (fun u => areaKey u = n)).map (fun u => jsOrQ u.price 0)).sum := by
  induction units generalizing acc with
  | nil => simp
  | cons u us ih =>
    simp only [List.foldl_cons, List.filter_cons]
    rw [ih, bumpArea_groupSum]
    by_cases h : areaKey u = n
    · simp [h]
      ring
    · have h2 : ¬ n = areaKey u := fun hh => h hh.symm
      simp [h, h2]

theorem areaGroups_loop_nodup (units : List Unit') (acc : List (String × ℚ × Nat))
    (h : (acc.map (fun g => g.1)).Nodup) :
    (((units.foldl (fun acc u => bumpArea acc (areaKey u) (jsOrQ u.price 0)) acc).map
        (fun g => g.1)).Nodup) := by
  induction units generalizing acc with
  | nil => simpa using h
  | cons u us ih =>
    simp only [List.foldl_cons]
    apply ih
    rw [bumpArea_names]
    by_cases hmem : areaKey u ∈ acc.map (fun g => g.1)
    · simpa [hmem] using h
    · rw [if_neg hmem]
      simp [List.nodup_append, h, hmem]

theorem areaGroups_loop_name_mem (units : List Unit') (acc : List (String × ℚ × Nat))
    (n : String)
    (h : n ∈ (units.foldl (fun acc u => bumpArea acc (areaKey u) (jsOrQ u.price 0)) acc).map
        (fun g => g.1)) :
    n ∈ acc.map (fun g => g.1) ∨ ∃ u ∈ units, areaKey u = n := by
  induction units generalizing acc with
  | nil => exact Or.inl (by simpa using h)
  | cons u us ih =>
    simp only [List.foldl_cons] at h
    rcases ih _ h with hmem | ⟨v, hv, hkey⟩
    · rw [bumpArea_names] at hmem
      by_cases hk : areaKey u ∈ acc.map (fun g => g.1)
      · rw [if_pos hk] at hmem
        exact Or.inl hmem
      · rw [if_neg hk] at hmem
        rcases List.mem_append.1 hmem with hmem | hmem
        · exact Or.inl hmem
        · have : n = areaKey u := by simpa using hmem
          exact Or.inr ⟨u, List.mem_cons_self u us, this.symm⟩
    · exact Or.inr ⟨v, List.mem_cons_of_mem u hv, hkey⟩

theorem finishArea_name (g : String × ℚ × Nat) : (finishArea g).name = g.1 := rfl

theorem finishArea_count (g : String × ℚ × Nat) : (finishArea g).count = g.2.2 := rfl

theorem finishArea_avgPrice (g : String × ℚ × Nat) :
    (finishArea g).avgPrice
      = if g.2.2 = 0 then 0 else ((jsRound (g.2.1 / (g.2.2 : ℚ)) : ℤ) : ℚ) := rfl

theorem byAreaLe_trans (a b c : AreaEntry) :
    byAreaLe a b → byAreaLe b c → byAreaLe a c := by
  simp only [byAreaLe, decide_eq_true_eq]
  omega

theorem byAreaLe_total (a b : AreaEntry) : byAreaLe a b || byAreaLe b a := by
  simp only [byAreaLe, Bool.or_eq_true, decide_eq_true_eq]
  omega

theorem overviewHandler_byArea (l : List RawItem) (h : ¬ l.length = 0) :
    (overviewHandler (some l)).byArea
      = (((areaGroups (unitsOf l)).map finishArea).mergeSort byAreaLe).take 10 := by
  simp [overviewHandler, h]

theorem areaGroups_names_nodup (units : List Unit') :
    ((areaGroups units).map (fun g => g.1)).Nodup :=
  areaGroups_loop_nodup units [] (by simp)

theorem areaGroups_count (units : List Unit') (g : String × ℚ × Nat)
    (hg : g ∈ areaGroups units) :
    g.2.2 = units.countP (fun u => areaKey u = g.1) := by
  have h := (mem_groups_count_sum _ (areaGroups_names_nodup units) g hg).1
  rw [h]
  simpa [groupCount] using areaGroups_loop_groupCount units [] g.1

theorem areaGroups_sum (units : List Unit') (g : String × ℚ × Nat)
    (hg : g ∈ areaGroups units) :
    g.2.1 = ((units.filter (fun u => areaKey u = g.1)).map (fun u => jsOrQ u.price 0)).sum := by
  have h := (mem_groups_count_sum _ (areaGroups_names_nodup units) g hg).2
  rw [h]
  simpa [groupSum] using areaGroups_loop_groupSum units [] g.1

theorem areaGroups_count_pos (units : List Unit') (g : String × ℚ × Nat)
    (hg : g ∈ areaGroups units) : 0 < g.2.2 := by
  rw [areaGroups_count units g hg]
  rw [List.countP_pos_iff]
  have hname : g.1 ∈ (areaGroups units).map (fun g => g.1) :=
    List.mem_map.2 ⟨g, hg, rfl⟩
  rcases areaGroups_loop_name_mem units [] g.1 hname with hmem | ⟨u, hu, hkey⟩
  · simp at hmem
  · exact ⟨u, hu, by simp [hkey]⟩

/-- The grouping key exactly as the claim words it: the unit's `subLocality`,
with `"Unknown"` only when the sub-locality is absent. -/
def claimAreaKey (u : Unit') : String := u.subLocality.getD "Unknown"

/-- C3 counterexample: for a record whose sub-locality is the empty string,
the overview groups the unit under `"Unknown"` (the code tests JS truthiness,
`u.subLocality || 'Unknown'`), yet the unit's subLocality is present, so no
unit has claim-side key `"Unknown"` and the claimed per-group count fails. -/
theorem overview_byArea_counterexample :
    ∃ e ∈ (overviewHandler (some [{ SUBLOCALITY := some "", PRICE := some 100 }])).byArea,
      e.count ≠ (unitsOf [{ SUBLOCALITY := some "", PRICE := some 100 }]).countP
        (fun u => claimAreaKey u = e.name) := by
  have hgroups :
      areaGroups (unitsOf [{ SUBLOCALITY := some "", PRICE := some 100 }])
        = [("Unknown", (100 : ℚ), 1)] := by rfl
  have hby : (overviewHandler (some [{ SUBLOCALITY := some "", PRICE := some 100 }])).byArea
      = [finishArea ("Unknown", (100 : ℚ), 1)] := by
    rw [overviewHandler_byArea _ (by simp), hgroups]
    simp
  refine ⟨finishArea ("Unknown", (100 : ℚ), 1), by rw [hby]; exact List.mem_singleton.mpr rfl, ?_⟩
  rw [finishArea_count, finishArea_name]
  decide

/-- C3 (amended): the overview's `byArea` list groups units by their
sub-locality, filing a unit under `"Unknown"` when its subLocality is absent
or empty (JS falsy); it has at most 10 entries, is sorted by count in
descending order, its group names are pairwise distinct, and each entry's
count is the number of units with that (falsy-adjusted) sub-locality, hence
positive. -/
theorem overview_byArea_grouping (ds : Option (List RawItem)) :
    (overviewHandler ds).byArea.length ≤ 10 ∧
    (overviewHandler ds).byArea.Pairwise (fun a b => b.count ≤ a.count) ∧
    (∀ l, ds = some l →
      (((overviewHandler ds).byArea.map (fun e => e.name)).Nodup ∧
        ∀ e ∈ (overviewHandler ds).byArea,
          e.count = (unitsOf l).countP (fun u => areaKey u = e.name) ∧ 0 < e.count)) := by
  cases ds with
  | none =>
    refine ⟨by simp [overviewHandler], by simp [overviewHandler], ?_⟩
    intro l hl
    cases hl
  | some l =>
    by_cases h0 : l.length = 0
    · have hz : (overviewHandler (some l)).byArea = [] := by simp [overviewHandler, h0]
      refine ⟨by simp [hz], by simp [hz], ?_⟩
      rintro l2 ⟨rfl⟩
      simp [hz]
    · have hb := overviewHandler_byArea l h0
      have hsorted :
          ((((areaGroups (unitsOf l)).map finishArea).mergeSort byAreaLe).Pairwise
            (fun a b => byAreaLe a b = true)) :=
        List.sorted_mergeSort byAreaLe_trans byAreaLe_total _
      refine ⟨?_, ?_, ?_⟩
      · rw [hb]
        exact List.length_take_le 10 _
      · rw [hb]
        refine List.Pairwise.sublist (List.take_sublist 10 _) ?_
        exact hsorted.imp (fun hab => by simpa [byAreaLe] using hab)
      · rintro l2 ⟨rfl⟩
        constructor
        · rw [hb, List.map_take]
          refine List.Nodup.sublist (List.take_sublist 10 _) ?_
          have hperm :
              List.Perm
                ((((areaGroups (unitsOf l)).map finishArea).mergeSort byAreaLe).map
                  (fun e => e.name))
                (((areaGroups (unitsOf l)).map finishArea).map (fun e => e.name)) :=
            (List.mergeSort_perm ((areaGroups (unitsOf l)).map finishArea) byAreaLe).map _
          rw [List.Perm.nodup_iff hperm, List.map_map]
          exact areaGroups_names_nodup (unitsOf l)
        · intro e he
          rw [hb] at he
          have he2 := List.mem_of_mem_take he
          have he3 : e ∈ (areaGroups (unitsOf l)).map finishArea :=
            ((List.mergeSort_perm _ byAreaLe).mem_iff).1 he2
          obtain ⟨g, hg, rfl⟩ := List.mem_map.1 he3
          rw [finishArea_count, finishArea_name]
          exact ⟨areaGroups_count _ g hg, areaGroups_count_pos _ g hg⟩

/-- Witness for the amended C3 at a three-record dataset with two areas. -/
theorem overview_byArea_grouping_witness :
    ((overviewHandler (some [{ SUBLOCALITY := some "A", PRICE := some 10 },
        { SUBLOCALITY := some "B", PRICE := some 20 },
        { SUBLOCALITY := some "B", PRICE := some 30 }])).byArea.map
      (fun e => e.name)).Nodup ∧
    ∀ e ∈ (overviewHandler (some [{ SUBLOCALITY := some "A", PRICE := some 10 },
        { SUBLOCALITY := some "B", PRICE := some 20 },
        { SUBLOCALITY := some "B", PRICE := some 30 }])).byArea,
      e.count = (unitsOf [({ SUBLOCALITY := some "A", PRICE := some 10 } : RawItem),
          { SUBLOCALITY := some "B", PRICE := some 20 },
          { SUBLOCALITY := some "B", PRICE := some 30 }]).countP
        (fun u => areaKey u = e.name) ∧ 0 < e.count :=
  (overview_byArea_grouping (some [{ SUBLOCALITY := some "A", PRICE := some 10 },
      { SUBLOCALITY := some "B", PRICE := some 20 },
      { SUBLOCALITY := some "B", PRICE := some 30 }])).2.2 _ rfl

/-- C10: each `byArea` entry's `avgPrice` is `Math.round` of that area's price
sum divided by its count (an integer), while the top-level `avgPrice` is the
unrounded quotient; at a concrete dataset the two figures differ. -/
theorem overview_avgPrice_rounding :
    (∀ (l : List RawItem) (e : AreaEntry), e ∈ (overviewHandler (some l)).byArea →
      e.avgPrice
        = ((jsRound ((((unitsOf l).filter (fun u => areaKey u = e.name)).map
            (fun u => jsOrQ u.price 0)).sum / (e.count : ℚ)) : ℤ) : ℚ)) ∧
    (∀ l : List RawItem, l ≠ [] →
      (overviewHandler (some l)).avgPrice
        = (overviewHandler (some l)).totalValue
          / ((overviewHandler (some l)).unitCount : ℚ)) ∧
    (∃ e ∈ (overviewHandler (some [{ PRICE := some 1 }, { PRICE := some 2 }])).byArea,
      e.avgPrice ≠ (overviewHandler (some [{ PRICE := some 1 }, { PRICE := some 2 }])).avgPrice) := by
  refine ⟨?_, ?_, ?_⟩
  · intro l e he
    cases l with
    | nil => simp [overviewHandler] at he
    | cons r rs =>
      have h0 : ¬ (r :: rs).length = 0 := by simp
      rw [overviewHandler_byArea _ h0] at he
      have he3 : e ∈ (areaGroups (unitsOf (r :: rs))).map finishArea :=
        ((List.mergeSort_perm _ byAreaLe).mem_iff).1 (List.mem_of_mem_take he)
      obtain ⟨g, hg, rfl⟩ := List.mem_map.1 he3
      have hpos := areaGroups_count_pos _ g hg
      rw [finishArea_avgPrice, finishArea_name, finishArea_count,
        if_neg (Nat.pos_iff_ne_zero.mp hpos), areaGroups_sum _ g hg]
  · intro l hne
    have h0 : ¬ l.length = 0 := by simpa using hne
    have hpos : 0 < (unitsOf l).length := by
      rw [unitsOf_length]; exact Nat.pos_of_ne_zero h0
    simp [overviewHandler, h0, hpos]
  · have hgroups :
        areaGroups (unitsOf [{ PRICE := some 1 }, { PRICE := some 2 }])
          = [("Unknown", (3 : ℚ), 2)] := by
      norm_num [areaGroups, unitsOf, mapIdxFrom, toUnit, areaKey, jsOrStr, jsOrQ, bumpArea]
    refine ⟨finishArea ("Unknown", (3 : ℚ), 2), ?_, ?_⟩
    · rw [overviewHandler_byArea _ (by simp), hgroups]
      simp
    · have hj : jsRound ((3 : ℚ) / 2) = 2 := by
        simp only [jsRound]
        norm_num
      have havg :
          (overviewHandler (some [{ PRICE := some 1 }, { PRICE := some 2 }])).avgPrice
            = 3 / 2 := by
        norm_num [overviewHandler, unitsOf, mapIdxFrom, toUnit, jsOrQ]
      rw [finishArea_avgPrice, havg]
      norm_num [hj]

/-- Witness for C10 at the same two-record dataset. -/
theorem overview_avgPrice_rounding_witness :
    (∀ e ∈ (overviewHandler (some [{ PRICE := some 1 }, { PRICE := some 2 }])).byArea,
      e.avgPrice
        = ((jsRound ((((unitsOf [({ PRICE := some 1 } : RawItem), { PRICE := some 2 }]).filter
              (fun u => areaKey u = e.name)).map
            (fun u => jsOrQ u.price 0)).sum / (e.count : ℚ)) : ℤ) : ℚ)) ∧
    (overviewHandler (some [{ PRICE := some 1 }, { PRICE := some 2 }])).avgPrice
      = (overviewHandler (some [{ PRICE := some 1 }, { PRICE := some 2 }])).totalValue
        / ((overviewHandler (some [{ PRICE := some 1 }, { PRICE := some 2 }])).unitCount : ℚ) :=
  ⟨fun e he => overview_avgPrice_rounding.1 [{ PRICE := some 1 }, { PRICE := some 2 }] e he,
   overview_avgPrice_rounding.2.1 [{ PRICE := some 1 }, { PRICE := some 2 }] (by simp)⟩

/-- The status filter as the claim words it: absent parameter keeps every
unit, otherwise case-insensitive equality with the unit's status. -/
def claimStatusPass (u : Unit') (q : Option String) : Bool :=
  match q with
  | none => true
  | some q => jsToLower u.status = jsToLower q

/-- The area filter as the claim words it: absent parameter keeps every unit,
otherwise the unit's subLocality must be present and contain the query as a
case-insensitive substring. -/
def claimAreaPass (u : Unit') (q : Option String) : Bool :=
  match q with
  | none => true
  | some q =>
    match u.subLocality with
    | none => false
    | some s => jsIncludes (jsToLower s) (jsToLower q)

/-- A query parameter with an empty value behaves like an absent one
(JS falsiness of `""` in `if (status)` / `if (area)`). -/
def effParam : Option String → Option String
  | none => none
  | some q => if q = "" then none else some q

/-- C4 counterexample: with `status=` supplied as the empty string, the claim's
filter keeps only units whose status equals `""`, i.e. nothing; the code skips
the filter entirely (`if (status)`) and returns the unit. -/
theorem properties_empty_status_counterexample :
    propertiesHandler [{ }] (some "") none
      ≠ ((unitsOf [{ }]).filter
          (fun u => claimStatusPass u (some "") && claimAreaPass u none)).take 200 := by
  decide

theorem effParam_of_falsy (p : Option String) (h : truthyStr p = false) :
    effParam p = none := by
  rcases (truthyStr_eq_false_iff p).1 h with rfl | rfl <;> simp [effParam]

theorem effParam_of_truthy (p : Option String) (h : truthyStr p = true) :
    ∃ q, p = some q ∧ q ≠ "" ∧ effParam p = some q := by
  cases p with
  | none => simp [truthyStr] at h
  | some q =>
    have hq : q ≠ "" := by simpa [truthyStr] using h
    exact ⟨q, rfl, hq, by simp [effParam, hq]⟩

theorem jsIncludes_empty_left (q : String) (hq : q ≠ "") :
    jsIncludes (jsToLower "") (jsToLower q) = false := by
  simp only [jsIncludes, jsToLower, decide_eq_false_iff_not]
  intro hinf
  have hnil : (q.data.map Char.toLower) = [] := by
    simpa using List.eq_nil_of_infix_nil (by simpa using hinf)
  have : q.data = [] := List.map_eq_nil_iff.1 hnil
  exact hq (by cases q; simp_all)

theorem areaPred_eq_claim (u : Unit') (q : String) (hq : q ≠ "") :
    areaPred u q = claimAreaPass u (some q) := by
  cases hsub : u.subLocality with
  | none => simp [areaPred, claimAreaPass, hsub]
  | some s =>
    by_cases hs : s = ""
    · subst hs
      simp [areaPred, claimAreaPass, hsub, jsIncludes_empty_left q hq]
    · simp [areaPred, claimAreaPass, hsub, hs]

/-- C4 (amended): `GET /api/properties` returns, in original dataset order, at
most the first 200 units passing both filters, where an absent or empty
`status`/`area` parameter disables its filter, a non-empty `status` keeps
exactly the units with case-insensitively equal status, and a non-empty `area`
keeps exactly the units whose subLocality is present and contains the query as
a case-insensitive substring. -/
theorem properties_filters (l : List RawItem) (status area : Option String) :
    propertiesHandler l status area
      = ((unitsOf l).filter
          (fun u => claimStatusPass u (effParam status)
            && claimAreaPass u (effParam area))).take 200 := by
  cases hs : truthyStr status with
  | false =>
    cases ha : truthyStr area with
    | false =>
      simp [propertiesHandler, hs, ha, effParam_of_falsy _ hs, effParam_of_falsy _ ha,
        claimStatusPass, claimAreaPass]
    | true =>
      obtain ⟨q, rfl, hq, heff⟩ := effParam_of_truthy _ ha
      simp only [propertiesHandler, hs, ha, if_false, if_true,
        effParam_of_falsy _ hs, heff, Option.getD_some]
      congr 1
      apply List.filter_congr
      intro u hu
      rw [areaPred_eq_claim u q hq]
      simp [claimStatusPass]
  | true =>
    obtain ⟨qs, rfl, hqs, heffs⟩ := effParam_of_truthy _ hs
    cases ha : truthyStr area with
    | false =>
      simp only [propertiesHandler, hs, ha, if_true, if_false,
        effParam_of_falsy _ ha, heffs, Option.getD_some]
      congr 1
      apply List.filter_congr
      intro u hu
      simp [claimStatusPass, claimAreaPass, statusPred]
    | true =>
      obtain ⟨qa, rfl, hqa, heffa⟩ := effParam_of_truthy _ ha
      simp only [propertiesHandler, hs, ha, if_true, heffs, heffa, Option.getD_some]
      rw [List.filter_filter]
      congr 1
      apply List.filter_congr
      intro u hu
      rw [areaPred_eq_claim u qa hqa]
      simp only [claimStatusPass, statusPred]
      exact Bool.and_comm _ _

/-- C9: with a non-empty `area` query, every returned unit has a present
subLocality (units from records lacking one can never match), and the filter
callback never faults: the truthiness guard short-circuits before
`toLowerCase` is read off an absent subLocality. -/
theorem properties_area_guard (l : List RawItem) (status : Option String)
    (q : String) (hq : q ≠ "") :
    (∀ u ∈ propertiesHandler l status (some q), u.subLocality ≠ none) ∧
    (∀ u : Unit', jsAreaTest u.subLocality q = Except.ok (areaPred u q)) := by
  constructor
  · intro u hu
    have hq2 : truthyStr (some q) = true := by simp [truthyStr, hq]
    simp only [propertiesHandler, hq2, if_true, Option.getD_some] at hu
    have hpred := (List.mem_filter.1 (List.mem_of_mem_take hu)).2
    intro hnone
    rw [areaPred] at hpred
    rw [hnone] at hpred
    cases hpred
  · intro u
    cases hsub : u.subLocality with
    | none => simp [jsAreaTest, areaPred, truthyStr, hsub]
    | some s =>
      by_cases hs : s = ""
      · subst hs
        simp [jsAreaTest, areaPred, truthyStr, hsub]
      · simp [jsAreaTest, areaPred, truthyStr, hsub, hs]

/-- Witness for C9 at a two-record dataset, one record without sub-locality. -/
theorem properties_area_guard_witness :
    (∀ u ∈ propertiesHandler [{ SUBLOCALITY := some "Astoria" }, { }] none (some "ast"),
      u.subLocality ≠ none) ∧
    (∀ u : Unit', jsAreaTest u.subLocality "ast" = Except.ok (areaPred u "ast")) :=
  properties_area_guard [{ SUBLOCALITY := some "Astoria" }, { }] none "ast" (by decide)

theorem mapIdxFrom_get_zero (f : Nat → α → β) (j : Nat) (l : List α)
    (h : j < l.length) (h2 : j < (mapIdxFrom f 0 l).length) :
    (mapIdxFrom f 0 l).get ⟨j, h2⟩ = f j (l.get ⟨j, h⟩) := by
  simpa using mapIdxFrom_get f 0 j l h h2

theorem get_take_eq (l : List α) (n j : Nat) (h : j < (l.take n).length)
    (h2 : j < l.length) :
    (l.take n).get ⟨j, h⟩ = l.get ⟨j, h2⟩ := by
  simp [List.get_eq_getElem]

/-- C5: `GET /api/sales/contracts` yields one contract per unit from the first
100 raw records, in order; `totalPrice` is the unit price, `downPayment` is
`round(price * 0.2)`, and the schedule holds exactly three `"Pending"`
installments of `round(price*0.2)`, `round(price*0.3)`, `round(price*0.3)` due
at 30, 60 and 90 days (in milliseconds) after request time. -/
theorem contracts_per_unit (l : List RawItem) (now : ℤ) :
    (contractsHandler l now).length = min 100 l.length ∧
    ∀ (i : Nat) (hi : i < l.length) (hc : i < (contractsHandler l now).length),
      ((contractsHandler l now).get ⟨i, hc⟩).unitId = (toUnit (l.get ⟨i, hi⟩) i).unitId ∧
      ((contractsHandler l now).get ⟨i, hc⟩).totalPrice = (l.get ⟨i, hi⟩).PRICE ∧
      (((contractsHandler l now).get ⟨i, hc⟩).installmentSchedule.map
          (fun ins => ins.status)) = ["Pending", "Pending", "Pending"] ∧
      (((contractsHandler l now).get ⟨i, hc⟩).installmentSchedule.map
          (fun ins => ins.installmentNo)) = [1, 2, 3] ∧
      (((contractsHandler l now).get ⟨i, hc⟩).installmentSchedule.map
          (fun ins => ins.dueDate))
        = [now + 30 * 86400000, now + 60 * 86400000, now + 90 * 86400000] ∧
      (∀ p, (l.get ⟨i, hi⟩).PRICE = some p →
        ((contractsHandler l now).get ⟨i, hc⟩).downPayment
            = JNum.num (jsRound (p * (1/5))) ∧
        (((contractsHandler l now).get ⟨i, hc⟩).installmentSchedule.map
            (fun ins => ins.amount))
          = [JNum.num (jsRound (p * (1/5))), JNum.num (jsRound (p * (3/10))),
              JNum.num (jsRound (p * (3/10)))]) := by
  have hlen : (contractsHandler l now).length = min 100 l.length := by
    simp only [contractsHandler]
    rw [mapIdxFrom_length, mapIdxFrom_length, List.length_take]
  refine ⟨hlen, ?_⟩
  intro i hi hc
  have ht : i < (l.take 100).length := by
    rw [List.length_take]
    rw [hlen] at hc
    omega
  have hu : i < (mapIdxFrom (fun i r => toUnit r i) 0 (l.take 100)).length := by
    rw [mapIdxFrom_length]
    exact ht
  have hget : (contractsHandler l now).get ⟨i, hc⟩
      = mkContract now i (toUnit (l.get ⟨i, hi⟩) i) := by
    show (mapIdxFrom (fun i u => mkContract now i u) 0
        (mapIdxFrom (fun i r => toUnit r i) 0 (l.take 100))).get ⟨i, hc⟩ = _
    rw [mapIdxFrom_get_zero _ i _ hu hc, mapIdxFrom_get_zero _ i _ ht hu,
      get_take_eq l 100 i ht hi]
  rw [hget]
  refine ⟨rfl, rfl, rfl, rfl, rfl, ?_⟩
  intro p hp
  have hprice : (toUnit (l.get ⟨i, hi⟩) i).price = some p := by
    rw [toUnit_price, hp]
  constructor
  · show jsMulRound (toUnit (l.get ⟨i, hi⟩) i).price (1/5) = _
    rw [hprice]
    rfl
  · show (mkContract now i (toUnit (l.get ⟨i, hi⟩) i)).installmentSchedule.map
        (fun ins => ins.amount) = _
    simp only [mkContract, List.map_cons, List.map_nil]
    rw [hprice]
    rfl

/-- Witness for C5 at a one-record dataset with price 10, request time 0. -/
theorem contracts_per_unit_witness :
    ((contractsHandler [{ PRICE := some 10 }] 0).length = min 100 1) ∧
    ((contractsHandler [{ PRICE := some 10 }] 0).get ⟨0, by decide⟩).totalPrice = some 10 ∧
    ((contractsHandler [{ PRICE := some 10 }] 0).get ⟨0, by decide⟩).downPayment
      = JNum.num ((jsRound ((10 : ℚ) * (1/5)) : ℤ) : ℚ) ∧
    (((contractsHandler [{ PRICE := some 10 }] 0).get ⟨0, by decide⟩).installmentSchedule.map
      (fun ins => ins.status)) = ["Pending", "Pending", "Pending"] := by
  have h := (contracts_per_unit [{ PRICE := some 10 }] 0).2 0 (by decide) (by decide)
  have hp := h.2.2.2.2.2 10 rfl
  exact ⟨(contracts_per_unit [{ PRICE := some 10 }] 0).1, h.2.1.trans rfl, hp.1, h.2.2.1⟩

/-- C6: `GET /api/maintenance/tasks` yields one task per unit from the first
50 raw records, in order; the task at index `i` is `"In Progress"` exactly
when `i % 3 = 0` (else `"Open"`), `"High"` priority exactly when the unit
price exceeds 900000 (else `"Normal"`), and an `"Inspection"` exactly when the
unit's price-per-sqft is a number exceeding 500 (else `"General Repair"`). -/
theorem tasks_per_unit (l : List RawItem) (now : ℤ) :
    (tasksHandler l now).length = min 50 l.length ∧
    ∀ (i : Nat) (hi : i < l.length) (hc : i < (tasksHandler l now).length),
      ((tasksHandler l now).get ⟨i, hc⟩).status
        = (if i % 3 = 0 then "In Progress" else "Open") ∧
      (((tasksHandler l now).get ⟨i, hc⟩).priority = "High"
        ↔ ∃ p, (l.get ⟨i, hi⟩).PRICE = some p ∧ p > 900000) ∧
      (((tasksHandler l now).get ⟨i, hc⟩).priority = "Normal"
        ↔ ¬ ∃ p, (l.get ⟨i, hi⟩).PRICE = some p ∧ p > 900000) ∧
      (((tasksHandler l now).get ⟨i, hc⟩).type = "Inspection"
        ↔ ∃ q, (toUnit (l.get ⟨i, hi⟩) i).pricePerSqft = some (JNum.num q) ∧ q > 500) ∧
      (((tasksHandler l now).get ⟨i, hc⟩).type = "General Repair"
        ↔ ¬ ∃ q, (toUnit (l.get ⟨i, hi⟩) i).pricePerSqft = some (JNum.num q) ∧ q > 500) := by
  have hlen : (tasksHandler l now).length = min 50 l.length := by
    simp only [tasksHandler]
    rw [mapIdxFrom_length, mapIdxFrom_length, List.length_take]
  refine ⟨hlen, ?_⟩
  intro i hi hc
  have ht : i < (l.take 50).length := by
    rw [List.length_take]
    rw [hlen] at hc
    omega
  have hu : i < (mapIdxFrom (fun i r => toUnit r i) 0 (l.take 50)).length := by
    rw [mapIdxFrom_length]
    exact ht
  have hget : (tasksHandler l now).get ⟨i, hc⟩
      = mkTask now i (toUnit (l.get ⟨i, hi⟩) i) := by
    show (mapIdxFrom (fun i u => mkTask now i u) 0
        (mapIdxFrom (fun i r => toUnit r i) 0 (l.take 50))).get ⟨i, hc⟩ = _
    rw [mapIdxFrom_get_zero _ i _ hu hc, mapIdxFrom_get_zero _ i _ ht hu,
      get_take_eq l 50 i ht hi]
  rw [hget]
  refine ⟨rfl, ?_, ?_, ?_, ?_⟩
  · show (if jsGtQ (toUnit (l.get ⟨i, hi⟩) i).price 900000 then "High" else "Normal") = "High" ↔ _
    rw [toUnit_price]
    cases hP : (l.get ⟨i, hi⟩).PRICE with
    | none => simp [jsGtQ]
    | some p =>
      by_cases hgt : p > 900000
      · simp [jsGtQ, hgt]
      · simp [jsGtQ, hgt]
  · show (if jsGtQ (toUnit (l.get ⟨i, hi⟩) i).price 900000 then "High" else "Normal") = "Normal" ↔ _
    rw [toUnit_price]
    cases hP : (l.get ⟨i, hi⟩).PRICE with
    | none => simp [jsGtQ]
    | some p =>
      by_cases hgt : p > 900000
      · simp [jsGtQ, hgt]
      · simp [jsGtQ, hgt]
  · show (if ppsqftHigh (toUnit (l.get ⟨i, hi⟩) i).pricePerSqft then "Inspection"
        else "General Repair") = "Inspection" ↔ _
    cases hpps : (toUnit (l.get ⟨i, hi⟩) i).pricePerSqft with
    | none => simp [ppsqftHigh]
    | some jn =>
      cases jn with
      | nan => simp [ppsqftHigh]
      | num q =>
        by_cases h0 : q = 0
        · subst h0
          simp [ppsqftHigh]
        · by_cases hgt : q > 500
          · simp [ppsqftHigh, h0, hgt]
          · simp [ppsqftHigh, h0, hgt]
  · show (if ppsqftHigh (toUnit (l.get ⟨i, hi⟩) i).pricePerSqft then "Inspection"
        else "General Repair") = "General Repair" ↔ _
    cases hpps : (toUnit (l.get ⟨i, hi⟩) i).pricePerSqft with
    | none => simp [ppsqftHigh]
    | some jn =>
      cases jn with
      | nan => simp [ppsqftHigh]
      | num q =>
        by_cases h0 : q = 0
        · subst h0
          simp [ppsqftHigh]
        · by_cases hgt : q > 500
          · simp [ppsqftHigh, h0, hgt]
          · simp [ppsqftHigh, h0, hgt]

/-- Witness for C6 at a two-record dataset, request time 0: the first unit is
expensive and dense (priority High, Inspection, In Progress), the second has
no price (Normal, General Repair, Open). -/
theorem tasks_per_unit_witness :
    ((tasksHandler [{ PRICE := some 1000000, PROPERTYSQFT := some 1000 }, { }] 0).length
      = min 50 2) ∧
    ((tasksHandler [{ PRICE := some 1000000, PROPERTYSQFT := some 1000 }, { }] 0).get
      ⟨0, by decide⟩).status = "In Progress" ∧
    (((tasksHandler [{ PRICE := some 1000000, PROPERTYSQFT := some 1000 }, { }] 0).get
      ⟨0, by decide⟩).priority = "High"
        ↔ ∃ p, (([({ PRICE := some 1000000, PROPERTYSQFT := some 1000 } : RawItem),
          { }]).get ⟨0, by decide⟩).PRICE = some p ∧ p > 900000) ∧
    (((tasksHandler [{ PRICE := some 1000000, PROPERTYSQFT := some 1000 }, { }] 0).get
      ⟨1, by decide⟩).priority = "Normal"
        ↔ ¬ ∃ p, (([({ PRICE := some 1000000, PROPERTYSQFT := some 1000 } : RawItem),
          { }]).get ⟨1, by decide⟩).PRICE = some p ∧ p > 900000) := by
  have h0 := (tasks_per_unit
    [{ PRICE := some 1000000, PROPERTYSQFT := some 1000 }, { }] 0).2 0 (by decide) (by decide)
  have h1 := (tasks_per_unit
    [{ PRICE := some 1000000, PROPERTYSQFT := some 1000 }, { }] 0).2 1 (by decide) (by decide)
  exact ⟨(tasks_per_unit [{ PRICE := some 1000000, PROPERTYSQFT := some 1000 }, { }] 0).1,
    h0.1, h0.2.1, h1.2.2.1⟩
